import Mathlib

/-!
Verification of the bakgrunnskart QGIS plugin (bakgrunnskart_plugin.py).

Shallow embedding of the catalog data model (services / offerings / variants),
the URL-escaping helpers, the per-protocol URI builders, the catalog search
filter, the offering normalization, and the picker-dialog selection state
machine, together with proofs of the specification claims about them.

Python dictionaries with a fixed key vocabulary are embedded as structures of
Option-valued fields (none = key absent).  Python string truthiness
(None or "" is falsy) is made explicit via truthyOpt / pyOr / pyOrS below.
-/

/-- Variant record: one selectable connection configuration.  Fields mirror
the keys read from variant dicts anywhere in bakgrunnskart_plugin.py. -/
structure Variant where
  type : Option String := none
  label : Option String := none
  title : Option String := none
  key : Option String := none
  url : Option String := none
  layers : Option String := none
  layer : Option String := none
  styles : Option String := none
  style : Option String := none
  format : Option String := none
  crs : Option String := none
  capabilities : Option String := none
  tileMatrixSet : Option String := none
  xyz_url : Option String := none
  zmin : Option Int := none
  zmax : Option Int := none
  uri : Option String := none
  service_url : Option String := none
  style_url : Option String := none
  styleUrl : Option String := none
  provider : Option String := none
deriving DecidableEq

/-- Offering record: the variants available for one protocol type.
bool(off.get("disabled")) is embedded as the Bool field disabled. -/
structure Offering where
  label : Option String := none
  variants : Option (List Variant) := none
  disabled : Bool := false
  disabled_reason : Option String := none
deriving DecidableEq

/-- Service record (catalog entry).  offerings is an association list to keep
the (insertion) order of the Python dict. -/
structure Service where
  name : Option String := none
  description : Option String := none
  offerings : Option (List (String × Offering)) := none
  variants : Option (List Variant) := none
deriving DecidableEq

/-- Python truthiness of an optional string: None and "" are falsy. -/
def truthyOpt : Option String → Bool
  | some s => s ≠ ""
  | none => false

/-- Python expression a or b on two optional strings. -/
def pyOr (a b : Option String) : Option String :=
  if truthyOpt a then a else b

/-- Python expression a or d where d is a string default. -/
def pyOrS (a : Option String) (d : String) : String :=
  match a with
  | some s => if s = "" then d else s
  | none => d

/-- Embedding of Python str.lower as a character-wise map (the strings this
plugin lowers are ASCII, where Char.toLower agrees with Python). -/
def strLower (s : String) : String :=
  String.mk (s.data.map Char.toLower)

/-- Python str.replace for a single-character pattern: every occurrence of
old is replaced by the string new (replacements are independent because the
pattern is one character). -/
def replaceChar (old : Char) (new : List Char) (s : List Char) : List Char :=
  s.flatMap fun c => if c = old then new else [c]

/-- Embedding of BakgrunnskartPlugin.encode_url_for_qgis_uri on char lists:
url.replace("%", "%25").replace("=", "%3D").replace("&", "%26"). -/
def encodeUrlChars (s : List Char) : List Char :=
  replaceChar '&' ['%', '2', '6']
    (replaceChar '=' ['%', '3', 'D']
      (replaceChar '%' ['%', '2', '5'] s))

/-- Embedding of BakgrunnskartPlugin.encode_url_for_qgis_uri. -/
def encode_url_for_qgis_uri (s : String) : String :=
  String.mk (encodeUrlChars s.data)

/-- Character-wise escape map claimed equivalent to the three-step WMTS/WMS
escaping (from the spec's words): '%' to "%25", '=' to "%3D", '&' to "%26",
every other character unchanged. -/
def escWmtsChar (c : Char) : List Char :=
  if c = '%' then ['%', '2', '5']
  else if c = '=' then ['%', '3', 'D']
  else if c = '&' then ['%', '2', '6']
  else [c]

/-- Embedding of the escaping done inline in add_xyz_layer:
replace("%","%25").replace("&","%26").replace("{","%7B").replace("}","%7D"). -/
def encodeXyzChars (s : List Char) : List Char :=
  replaceChar '}' ['%', '7', 'D']
    (replaceChar '{' ['%', '7', 'B']
      (replaceChar '&' ['%', '2', '6']
        (replaceChar '%' ['%', '2', '5'] s)))

/-- Character-wise escape map claimed equivalent to the xyz escaping (from the
spec's words): '%' to "%25", '&' to "%26", '{' to "%7B", '}' to "%7D", every
other character (including '=') unchanged. -/
def escXyzChar (c : Char) : List Char :=
  if c = '%' then ['%', '2', '5']
  else if c = '&' then ['%', '2', '6']
  else if c = '{' then ['%', '7', 'B']
  else if c = '}' then ['%', '7', 'D']
  else [c]

/-- Placeholder variant inserted by the normalization when grouping yields no
groups: the dict literal with label "Standard" and key "default". -/
def defaultVariant : Variant :=
  { label := some "Standard", key := some "default" }

/-- Default wmts offering synthesized by ServicePickerDialog._normalize_offerings
when nothing else is available. -/
def defaultWmtsOffering : Offering :=
  { label := some "WMTS / XYZ", variants := some [defaultVariant] }

/-- Group key assigned to a variant by the grouping loop of
ServicePickerDialog._normalize_offerings: lower-cased type, with wmts and xyz
grouped as "wmts", wms as "wms", the vector-tile aliases as "vectortile" and
everything else falling back to "wmts". -/
def variantGroupKey (v : Variant) : String :=
  let t := strLower (v.type.getD "")
  if t = "wmts" ∨ t = "xyz" then "wmts"
  else if t = "wms" then "wms"
  else if t = "vectortile" ∨ t = "vt" ∨ t = "mvt" ∨ t = "arcgis_vt" ∨ t = "arcgisvectortile"
    then "vectortile"
  else "wmts"

/-- Grouping of a flat variants list by ServicePickerDialog._normalize_offerings
(the branch taken when the service has no usable offerings dict).  The Python
loop appends each variant to exactly one of three lists in traversal order,
which is List.filter by the group key. -/
def fromVariants (vsOpt : Option (List Variant)) : List (String × Offering) :=
  let variants := vsOpt.getD []
  let wmts_like := variants.filter fun v => variantGroupKey v == "wmts"
  let wms_like := variants.filter fun v => variantGroupKey v == "wms"
  let vt_like := variants.filter fun v => variantGroupKey v == "vectortile"
  let out :=
    (if wmts_like = [] then []
      else [("wmts", { label := some "WMTS / XYZ", variants := some wmts_like : Offering })]) ++
    (if wms_like = [] then []
      else [("wms", { label := some "WMS", variants := some wms_like : Offering })]) ++
    (if vt_like = [] then []
      else [("vectortile", { label := some "Vector tiles", variants := some vt_like : Offering })])
  if out = [] then [("wmts", defaultWmtsOffering)] else out

/-- Embedding of ServicePickerDialog._normalize_offerings: a non-empty
offerings dict is returned as-is, otherwise the flat variants list is grouped. -/
def normalizeOfferings (svc : Service) : List (String × Offering) :=
  match svc.offerings with
  | some offs => if offs = [] then fromVariants svc.variants else offs
  | none => fromVariants svc.variants

/-- Concrete record holding an explicit but empty offerings mapping. -/
def svcEmptyOfferings : Service :=
  { offerings := some [], variants := some [] }

/-- Substring containment on character lists (the Python operator in applied
to strings). -/
def isSubChars (q s : List Char) : Bool :=
  s.tails.any fun t => q.isPrefixOf t

/-- Embedding of Python str.strip: whitespace removed from both ends. -/
def strTrim (s : String) : String :=
  String.mk (((s.data.dropWhile Char.isWhitespace).reverse.dropWhile Char.isWhitespace).reverse)

/-- Search blob precomputed per service in _populate_services: name,
description, the offering labels (label, falling back to the type key) and the
variant labels, joined by single spaces and lower-cased. -/
def searchBlob (svc : Service) : String :=
  let offerings := normalizeOfferings svc
  let type_labels := offerings.map fun ko => pyOrS ko.2.label ko.1
  let variant_labels := offerings.flatMap fun ko =>
    (ko.2.variants.getD []).map fun v => pyOrS v.label ""
  strLower (String.intercalate " "
    [pyOrS svc.name "", pyOrS svc.description "",
      String.intercalate " " type_labels, String.intercalate " " variant_labels])

/-- Per-item visibility decision of _apply_filter: with
q = text.strip().lower(), an item stays visible iff q is empty or q occurs in
the item's search blob. -/
def recordVisible (text : String) (svc : Service) : Bool :=
  let q := strLower (strTrim text)
  if q = "" then true else isSubChars q.data (searchBlob svc).data

/-- The services left visible by _apply_filter, in catalog order. -/
def filterServices (services : List Service) (text : String) : List Service :=
  services.filter (recordVisible text)

/-- Concrete one-record catalog entry used to exercise the filter. -/
def svcAbc : Service := { name := some "abc" }

/-- Errors raised by the layer-building code, one constructor per distinct
raise site: KeyError from a mandatory dict lookup, the RuntimeError for a WMS
variant without layers, the RuntimeError for a vector-tile variant without
uri or service/style urls, the RuntimeError when QgsVectorTileLayer is
unavailable, the RuntimeError when the host reports the built layer invalid,
and the RuntimeError of run's final else branch for an unknown variant type. -/
inductive BuildErr
  | keyError (key : String)
  | wmsMissingLayers
  | vtMissingFields
  | vtUnavailable
  | layerInvalid (uri : String)
  | unknownType
deriving DecidableEq

/-- String form of the xyz escaping done inline in add_xyz_layer. -/
def encodeXyzUrl (s : String) : String :=
  String.mk (encodeXyzChars s.data)

/-- URI construction of BakgrunnskartPlugin.add_xyz_layer up to the layer
constructor call: variant["xyz_url"] raises KeyError when absent; zmin and
zmax default to 0 and 21. -/
def xyzUri (v : Variant) : Except BuildErr String :=
  match v.xyz_url with
  | none => .error (.keyError "xyz_url")
  | some url_tmpl =>
    let url_enc := encodeXyzUrl url_tmpl
    let zmin : Int := v.zmin.getD 0
    let zmax : Int := v.zmax.getD 21
    .ok ("type=xyz&url=" ++ url_enc ++ "&zmin=" ++ toString zmin ++
      "&zmax=" ++ toString zmax ++ "&crs=EPSG3857")

/-- URI construction of BakgrunnskartPlugin.add_wmts_layer: capabilities,
layer and tileMatrixSet are mandatory lookups (KeyError when absent); crs,
format and style default to EPSG:25833, image/png and "default". -/
def wmtsUri (v : Variant) : Except BuildErr String :=
  match v.capabilities with
  | none => .error (.keyError "capabilities")
  | some cap =>
    let cap_enc := encode_url_for_qgis_uri cap
    let crs := v.crs.getD "EPSG:25833"
    let fmt := v.format.getD "image/png"
    match v.layer with
    | none => .error (.keyError "layer")
    | some layer =>
      let style := v.style.getD "default"
      match v.tileMatrixSet with
      | none => .error (.keyError "tileMatrixSet")
      | some tms =>
        .ok ("crs=" ++ crs ++ "&format=" ++ fmt ++ "&layers=" ++ layer ++
          "&styles=" ++ style ++ "&tileMatrixSet=" ++ tms ++ "&url=" ++ cap_enc)

/-- URI construction of BakgrunnskartPlugin.add_wms_layer: url is a mandatory
lookup; layers falls back to layer by Python truthiness and a falsy result
raises the missing-layers RuntimeError; crs, format and styles default to
EPSG:25833, image/png and "". -/
def wmsUri (v : Variant) : Except BuildErr String :=
  match v.url with
  | none => .error (.keyError "url")
  | some url =>
    let url_enc := encode_url_for_qgis_uri url
    let crs := v.crs.getD "EPSG:25833"
    let fmt := v.format.getD "image/png"
    let layers := pyOr v.layers v.layer
    let styles := v.styles.getD ""
    if truthyOpt layers then
      .ok ("crs=" ++ crs ++ "&format=" ++ fmt ++ "&layers=" ++ layers.getD "" ++
        "&styles=" ++ styles ++ "&url=" ++ url_enc)
    else .error .wmsMissingLayers

/-- URI construction of BakgrunnskartPlugin.add_vectortile_layer: a truthy
uri field is used as-is; otherwise the uri is assembled from url/service_url
and style_url/styleUrl (truthiness fallbacks) with zmin/zmax defaults 0/14,
and missing fields raise the vector-tile RuntimeError. -/
def vtUri (v : Variant) : Except BuildErr String :=
  if truthyOpt v.uri then .ok (v.uri.getD "")
  else
    let service_url := pyOr v.url v.service_url
    let style_url := pyOr v.style_url v.styleUrl
    let zmin : Int := v.zmin.getD 0
    let zmax : Int := v.zmax.getD 14
    if truthyOpt service_url && truthyOpt style_url then
      .ok ("serviceType=arcgis&styleUrl=" ++ style_url.getD "" ++ "&type=xyz&url=" ++
        service_url.getD "" ++ "&zmin=" ++ toString zmin ++ "&zmax=" ++ toString zmax)
    else .error .vtMissingFields

/-- Concrete xyz variant with tile placeholders and no zmin/zmax. -/
def vXyzSample : Variant :=
  { type := some "xyz", xyz_url := some "https://t/{z}/{y}/{x}?a=1" }

/-- Concrete wmts variant carrying only the mandatory fields. -/
def vWmtsSample : Variant :=
  { type := some "wmts", capabilities := some "https://c?s=W&r=G",
    layer := some "topo", tileMatrixSet := some "utm33n" }

/-- Embedding of Python str.upper as a character-wise map (ASCII domain). -/
def strUpper (s : String) : String :=
  String.mk (s.data.map Char.toUpper)

/-- A constructed layer: the (uri, title, provider) triple handed to the host
layer constructor. -/
structure Layer where
  uri : String
  title : String
  provider : String
deriving DecidableEq

/-- Host project state: layers registered via QgsProject.addMapLayer and
layers added to the Bakgrunnskart group, in order. -/
structure ProjState where
  registered : List Layer := []
  groupLayers : List Layer := []
deriving DecidableEq

/-- Host behaviour: whether a raster or vector-tile layer built from a uri is
reported valid by QGIS, and whether QgsVectorTileLayer exists in this QGIS
version. -/
structure Host where
  rasterValid : String → Bool
  vtAvailable : Bool := true
  vtValid : String → Bool

/-- Python title = variant.get("title") or variant.get("label") or d, the
truthiness chain used by every add_*_layer method. -/
def layerTitle (v : Variant) (d : String) : String :=
  pyOrS v.title (pyOrS v.label d)

/-- Embedding of BakgrunnskartPlugin.add_xyz_layer: build the uri, construct
the raster layer with provider "wms", raise when the host reports it invalid,
otherwise register it with the project. -/
def addXyzLayer (host : Host) (v : Variant) (st : ProjState) :
    Except BuildErr Layer × ProjState :=
  match xyzUri v with
  | .error e => (.error e, st)
  | .ok uri =>
    let l : Layer := ⟨uri, layerTitle v "XYZ", "wms"⟩
    if host.rasterValid uri then
      (.ok l, { st with registered := st.registered ++ [l] })
    else (.error (.layerInvalid uri), st)

/-- Embedding of BakgrunnskartPlugin.add_wmts_layer (same shape as xyz). -/
def addWmtsLayer (host : Host) (v : Variant) (st : ProjState) :
    Except BuildErr Layer × ProjState :=
  match wmtsUri v with
  | .error e => (.error e, st)
  | .ok uri =>
    let l : Layer := ⟨uri, layerTitle v "WMTS", "wms"⟩
    if host.rasterValid uri then
      (.ok l, { st with registered := st.registered ++ [l] })
    else (.error (.layerInvalid uri), st)

/-- Embedding of BakgrunnskartPlugin.add_wms_layer (same shape as xyz). -/
def addWmsLayer (host : Host) (v : Variant) (st : ProjState) :
    Except BuildErr Layer × ProjState :=
  match wmsUri v with
  | .error e => (.error e, st)
  | .ok uri =>
    let l : Layer := ⟨uri, layerTitle v "WMS", "wms"⟩
    if host.rasterValid uri then
      (.ok l, { st with registered := st.registered ++ [l] })
    else (.error (.layerInvalid uri), st)

/-- Embedding of BakgrunnskartPlugin.add_vectortile_layer: unavailable
QgsVectorTileLayer raises first, then the uri is built, the layer constructed
with the provider field (defaulting to arcgisvectortileservice), validated
and registered. -/
def addVectortileLayer (host : Host) (v : Variant) (st : ProjState) :
    Except BuildErr Layer × ProjState :=
  if host.vtAvailable then
    match vtUri v with
    | .error e => (.error e, st)
    | .ok uri =>
      let l : Layer := ⟨uri, layerTitle v "Vector tiles", v.provider.getD "arcgisvectortileservice"⟩
      if host.vtValid uri then
        (.ok l, { st with registered := st.registered ++ [l] })
      else (.error (.layerInvalid uri), st)
  else (.error .vtUnavailable, st)

/-- The layer title composed in run:
"<service name> [<TYPE>] (<variant label or variant>)". -/
def selectionTitle (service : Service) (type_key : String) (variant : Variant) : String :=
  (service.name.getD "Bakgrunnskart") ++ " [" ++ strUpper type_key ++ "] (" ++
    variant.label.getD "variant" ++ ")"

/-- The group step at the end of run: a successful build gets its layer added
to the Bakgrunnskart group; an error propagates with no further state change. -/
def groupAfter (step : Except BuildErr Layer × ProjState) :
    Except BuildErr Layer × ProjState :=
  match step with
  | (.ok l, st1) => (.ok l, { st1 with groupLayers := st1.groupLayers ++ [l] })
  | (.error e, st1) => (.error e, st1)

/-- Embedding of the protected section of BakgrunnskartPlugin.run after a
fully populated selection is obtained: dispatch on the lower-cased variant
type, build and register the layer, then add it to the group; any raise
leaves the remaining steps unexecuted (the except handler only shows a
message box). -/
def runAdd (host : Host) (service : Service) (type_key : String) (variant : Variant)
    (st : ProjState) : Except BuildErr Layer × ProjState :=
  let vtype := strLower (variant.type.getD "")
  let v := { variant with title := some (selectionTitle service type_key variant) }
  groupAfter
    (if vtype = "wmts" then addWmtsLayer host v st
    else if vtype = "xyz" then addXyzLayer host v st
    else if vtype = "wms" then addWmsLayer host v st
    else if vtype = "vectortile" ∨ vtype = "vt" ∨ vtype = "mvt" ∨ vtype = "arcgis_vt" then
      addVectortileLayer host v st
    else (.error .unknownType, st))

/-- The set of variant types accepted by run's dispatch (from the spec's
words about the recognized kinds): wmts, xyz, wms and the vector-tile
aliases handled at build time. -/
def buildTimeRecognized (v : Variant) : Bool :=
  let t := strLower (v.type.getD "")
  t == "wmts" || t == "xyz" || t == "wms" ||
    t == "vectortile" || t == "vt" || t == "mvt" || t == "arcgis_vt"

/-- Concrete wms variant with a present-but-empty layers field. -/
def vWmsEmptyLayers : Variant :=
  { type := some "wms", url := some "https://u", layers := some "" }

/-- Concrete vector-tile variant using the alias arcgisvectortile, which the
normalization groups under vectortile. -/
def vArcgisVT : Variant :=
  { type := some "arcgisvectortile", uri := some "https://vt" }

/-- Host that accepts every uri and has vector tiles available. -/
def hostPermissive : Host :=
  { rasterValid := fun _ => true, vtAvailable := true, vtValid := fun _ => true }

/-- Host that rejects every uri. -/
def hostRejecting : Host :=
  { rasterValid := fun _ => false, vtAvailable := false, vtValid := fun _ => false }

/-- An arbitrary pre-existing layer used to seed non-empty project states. -/
def sampleLayer : Layer := ⟨"u", "t", "wms"⟩

/-- Stable type ordering of ServicePickerDialog.TYPE_ORDER. -/
def TYPE_ORDER : List String := ["wmts", "wms", "vectortile"]

/-- Insertion of a string into a sorted list (helper for sortStrings). -/
def insertSorted (x : String) : List String → List String
  | [] => [x]
  | y :: t => if x ≤ y then x :: y :: t else y :: insertSorted x t

/-- Embedding of Python sorted on strings (lexicographic code-point order;
the dialog sorts dict keys, which are distinct). -/
def sortStrings : List String → List String
  | [] => []
  | x :: t => insertSorted x (sortStrings t)

/-- Key order used by _populate_types: TYPE_ORDER keys that are present,
followed by the remaining offering keys sorted. -/
def typeKeysOrder (offs : List (String × Offering)) : List String :=
  (TYPE_ORDER.filter fun k => (offs.lookup k).isSome) ++
    sortStrings ((offs.map Prod.fst).filter fun k => !TYPE_ORDER.contains k)

/-- Disabled flag of the offering under key k, as read by _populate_types
(off = offerings.get(k) or empty, disabled = bool(off.get("disabled"))). -/
def keyDisabled (offs : List (String × Offering)) (k : String) : Bool :=
  match offs.lookup k with
  | some off => off.disabled
  | none => false

/-- Type key auto-selected by _populate_types: the first non-disabled key in
the stable order; none when every offering is disabled (and, by Python
truthiness, when the first enabled key is the empty string). -/
def autoTypeKey (svc : Service) : Option String :=
  let offerings := normalizeOfferings svc
  match (typeKeysOrder offerings).find? (fun k => !keyDisabled offerings k) with
  | some k => if k = "" then none else some k
  | none => none

/-- Variant list shown by _populate_variants_for_type: the selected
offering's variants, replaced by the placeholder list when falsy. -/
def variantsForType (svc : Service) (tk : Option String) : List Variant :=
  let offerings := normalizeOfferings svc
  let off := match tk with
    | some k => offerings.lookup k
    | none => none
  let vs := match off with
    | some o => o.variants.getD []
    | none => []
  if vs = [] then [defaultVariant] else vs

/-- Dialog result code. -/
inductive DRes
  | opened
  | accepted
  | rejected
deriving DecidableEq

/-- Dialog selection state: _selected_service, _selected_type_key,
_selected_variant and the dialog result. -/
structure DState where
  svc : Option Service := none
  typeKey : Option String := none
  variant : Option Variant := none
  res : DRes := .opened
deriving DecidableEq

/-- The dialog state right after construction, before any service is picked
(an empty catalog for generality: selecting the initial row is the
selectService event below). -/
def initDialog : DState := {}

/-- Embedding of ServicePickerDialog.get_selection: the triple when the
dialog result is accepted, (None, None, None) otherwise. -/
def getSelection (st : DState) : Option Service × Option String × Option Variant :=
  if st.res = .accepted then (st.svc, st.typeKey, st.variant) else (none, none, none)

/-- One user-interaction event of the picker dialog while it is open.
selectService is _on_service_changed (auto type plus first variant);
clickType is _on_type_clicked, possible only for an existing, non-disabled
offering because disabled radio buttons are not clickable; clickVariant is
_on_variant_clicked for a shown variant; filterClear is the branch of
_apply_filter where nothing stays visible (types and variants are cleared,
the service is kept); pressOk is _accept, which accepts only when service,
type key and variant are all set (with the type key non-empty by Python
truthiness) and otherwise only shows a message box; pressCancel rejects. -/
inductive DStep : DState → DState → Prop
  | selectService (st : DState) (s : Service) (h : st.res = .opened) :
      DStep st ⟨some s, autoTypeKey s, (variantsForType s (autoTypeKey s)).head?, .opened⟩
  | clickType (st : DState) (s : Service) (k : String) (off : Offering)
      (h : st.res = .opened) (hs : st.svc = some s)
      (hk : (normalizeOfferings s).lookup k = some off) (hd : off.disabled = false) :
      DStep st ⟨st.svc, some k, (variantsForType s (some k)).head?, .opened⟩
  | clickVariant (st : DState) (s : Service) (v : Variant)
      (h : st.res = .opened) (hs : st.svc = some s)
      (hv : v ∈ variantsForType s st.typeKey) :
      DStep st ⟨st.svc, st.typeKey, some v, .opened⟩
  | filterClear (st : DState) (h : st.res = .opened) :
      DStep st ⟨st.svc, none, none, .opened⟩
  | pressOk (st : DState) (s : Service) (k : String) (v : Variant)
      (h : st.res = .opened) (hs : st.svc = some s) (hk : st.typeKey = some k)
      (hke : k ≠ "") (hv : st.variant = some v) :
      DStep st ⟨st.svc, st.typeKey, st.variant, .accepted⟩
  | pressCancel (st : DState) (h : st.res = .opened) :
      DStep st ⟨st.svc, st.typeKey, st.variant, .rejected⟩

/-- Dialog states reachable from the initial state by user interactions. -/
inductive DialogReachable : DState → Prop
  | init : DialogReachable initDialog
  | step {st st' : DState} : DialogReachable st → DStep st st' → DialogReachable st'

/-- Disabled wmts offering used in the concrete two-offering service below. -/
def offWmtsDisabled : Offering :=
  { label := some "WMTS", disabled := true, disabled_reason := some "later" }

/-- Enabled wms offering used together with offWmtsDisabled. -/
def offWmsEnabled : Offering :=
  { label := some "WMS", variants := some [{ type := some "wms", url := some "https://u", layers := some "l" }] }

/-- The two-offering service with the disabled wmts offering first. -/
def svcDisabledFirst : Service :=
  { offerings := some [("wmts", offWmtsDisabled), ("wms", offWmsEnabled)] }

/-- Concrete service holding one flat xyz variant. -/
def svcSimple : Service :=
  { name := some "S", variants := some [{ type := some "xyz", xyz_url := some "https://x" }] }

theorem replaceChar_append (o : Char) (n : List Char) (l₁ l₂ : List Char) :
    replaceChar o n (l₁ ++ l₂) = replaceChar o n l₁ ++ replaceChar o n l₂ := by
  simp [replaceChar]

theorem encodeUrlChars_append (l₁ l₂ : List Char) :
    encodeUrlChars (l₁ ++ l₂) = encodeUrlChars l₁ ++ encodeUrlChars l₂ := by
  simp [encodeUrlChars, replaceChar_append]

theorem encodeUrlChars_single (c : Char) : encodeUrlChars [c] = escWmtsChar c := by
  by_cases h1 : c = '%'
  · subst h1; decide
  · by_cases h2 : c = '='
    · subst h2; decide
    · by_cases h3 : c = '&'
      · subst h3; decide
      · simp [encodeUrlChars, replaceChar, escWmtsChar, h1, h2, h3]

theorem encodeUrlChars_eq_bind : ∀ s : List Char, encodeUrlChars s = s.flatMap escWmtsChar
  | [] => rfl
  | c :: cs => by
    have h := encodeUrlChars_append [c] cs
    rw [List.singleton_append] at h
    rw [h, encodeUrlChars_single, encodeUrlChars_eq_bind cs, List.flatMap_cons]

theorem encodeXyzChars_append (l₁ l₂ : List Char) :
    encodeXyzChars (l₁ ++ l₂) = encodeXyzChars l₁ ++ encodeXyzChars l₂ := by
  simp [encodeXyzChars, replaceChar_append]

theorem encodeXyzChars_single (c : Char) : encodeXyzChars [c] = escXyzChar c := by
  by_cases h1 : c = '%'
  · subst h1; decide
  · by_cases h2 : c = '&'
    · subst h2; decide
    · by_cases h3 : c = '{'
      · subst h3; decide
      · by_cases h4 : c = '}'
        · subst h4; decide
        · simp [encodeXyzChars, replaceChar, escXyzChar, h1, h2, h3, h4]

theorem encodeXyzChars_eq_bind : ∀ s : List Char, encodeXyzChars s = s.flatMap escXyzChar
  | [] => rfl
  | c :: cs => by
    have h := encodeXyzChars_append [c] cs
    rw [List.singleton_append] at h
    rw [h, encodeXyzChars_single, encodeXyzChars_eq_bind cs, List.flatMap_cons]

/-- C1: the URL-escaping used for WMTS/WMS connection strings is the three
replacements '%'→"%25", '='→"%3D", '&'→"%26" applied in that order; on every
input the composite equals the character-wise escape map (so escape-introduced
'%' characters are never re-escaped), and on "https://x?a=1&b=2" it yields
"https://x?a%3D1%26b%3D2". -/
theorem c1_encode_url_charwise :
    (∀ s : String, encode_url_for_qgis_uri s = String.mk (s.data.flatMap escWmtsChar)) ∧
    encode_url_for_qgis_uri "https://x?a=1&b=2" = "https://x?a%3D1%26b%3D2" := by
  constructor
  · intro s
    rw [encode_url_for_qgis_uri, encodeUrlChars_eq_bind]
  · decide

theorem variantGroupKey_mem (v : Variant) :
    variantGroupKey v = "wmts" ∨ variantGroupKey v = "wms" ∨ variantGroupKey v = "vectortile" := by
  simp only [variantGroupKey]
  split_ifs <;> simp

theorem fromVariants_lookup (vs : List Variant) (k : String)
    (hk : k = "wmts" ∨ k = "wms" ∨ k = "vectortile")
    (h : vs.filter (fun v => variantGroupKey v == k) ≠ []) :
    ∃ off, (fromVariants (some vs)).lookup k = some off ∧
      off.variants = some (vs.filter fun v => variantGroupKey v == k) := by
  rcases hk with rfl | rfl | rfl
  · refine ⟨⟨some "WMTS / XYZ", some (vs.filter fun v => variantGroupKey v == "wmts"), false, none⟩, ?_, rfl⟩
    simp [fromVariants, h, List.lookup]
  · refine ⟨⟨some "WMS", some (vs.filter fun v => variantGroupKey v == "wms"), false, none⟩, ?_, rfl⟩
    by_cases h1 : (vs.filter fun v => variantGroupKey v == "wmts") = [] <;>
      simp [fromVariants, h, h1, List.lookup]
  · refine ⟨⟨some "Vector tiles", some (vs.filter fun v => variantGroupKey v == "vectortile"), false, none⟩, ?_, rfl⟩
    by_cases h1 : (vs.filter fun v => variantGroupKey v == "wmts") = [] <;>
      by_cases h2 : (vs.filter fun v => variantGroupKey v == "wms") = [] <;>
        simp [fromVariants, h, h1, h2, List.lookup]

/-- C2 counterexample: a record with an explicit but empty offerings mapping is
not returned as-is: _normalize_offerings falls through to grouping and
synthesizes the default wmts offering, so normalization is not the identity on
every record carrying an explicit offerings mapping. -/
theorem c2_counterexample :
    svcEmptyOfferings.offerings = some [] ∧
      normalizeOfferings svcEmptyOfferings = [("wmts", defaultWmtsOffering)] ∧
      normalizeOfferings svcEmptyOfferings ≠ [] :=
  ⟨rfl, by decide, by decide⟩

/-- C2 (amended): a non-empty explicit offerings mapping is returned as-is;
when the offerings mapping is absent or empty, the flat variants list is
grouped by the lower-cased type key (wmts/xyz to "wmts", wms to "wms", the
vector-tile aliases to "vectortile", anything else to "wmts" as fallback),
each group holding exactly the variants with that key in catalog order; a
lone type "xyz" variant yields a single "wmts" group containing exactly that
variant; and when grouping yields no groups, a single default "wmts" offering
with one placeholder variant is synthesized. -/
theorem c2_normalize_offerings (svc : Service) :
    (∀ offs, svc.offerings = some offs → offs ≠ [] → normalizeOfferings svc = offs) ∧
    ((svc.offerings = none ∨ svc.offerings = some []) →
      (∀ k, (k = "wmts" ∨ k = "wms" ∨ k = "vectortile") →
        (svc.variants.getD []).filter (fun v => variantGroupKey v == k) ≠ [] →
        ∃ off, (normalizeOfferings svc).lookup k = some off ∧
          off.variants = some ((svc.variants.getD []).filter fun v => variantGroupKey v == k)) ∧
      (∀ v ∈ svc.variants.getD [],
        variantGroupKey v = "wmts" ∨ variantGroupKey v = "wms" ∨ variantGroupKey v = "vectortile") ∧
      (svc.variants.getD [] = [] → normalizeOfferings svc = [("wmts", defaultWmtsOffering)]) ∧
      (∀ v, v.type = some "xyz" → svc.variants = some [v] →
        normalizeOfferings svc = [("wmts", ⟨some "WMTS / XYZ", some [v], false, none⟩)])) := by
  constructor
  · intro offs h1 h2
    simp [normalizeOfferings, h1, h2]
  · intro hoff
    have hnorm : normalizeOfferings svc = fromVariants svc.variants := by
      rcases hoff with h | h <;> simp [normalizeOfferings, h]
    have hsome : fromVariants svc.variants = fromVariants (some (svc.variants.getD [])) := by
      cases svc.variants <;> rfl
    refine ⟨?_, ?_, ?_, ?_⟩
    · intro k hk hne
      rw [hnorm, hsome]
      exact fromVariants_lookup _ k hk hne
    · intro v _hv
      exact variantGroupKey_mem v
    · intro hvs
      rw [hnorm, hsome, hvs]
      decide
    · intro v hv hsv
      rw [hnorm, hsv]
      have hk : variantGroupKey v = "wmts" := by
        unfold variantGroupKey
        rw [hv]
        decide
      simp [fromVariants, hk]

/-- Witness for c2_normalize_offerings: a service holding one flat xyz variant
normalizes to a single wmts group containing exactly that variant. -/
theorem c2_normalize_offerings_witness :
    normalizeOfferings { variants := some [{ type := some "xyz", label := some "L" }] } =
      [("wmts", ⟨some "WMTS / XYZ", some [{ type := some "xyz", label := some "L" }], false, none⟩)] :=
  ((c2_normalize_offerings _).2 (Or.inl rfl)).2.2.2 _ rfl rfl

/-- C3 counterexample: with the one-record catalog [svcAbc] and the query
" abc", the record is kept although the lower-cased query " abc" is not a
substring of its search blob: _apply_filter strips whitespace from the query
before matching, which the claim's reading of the query does not allow. -/
theorem c3_counterexample :
    filterServices [svcAbc] " abc" = [svcAbc] ∧
      isSubChars (strLower " abc").data (searchBlob svcAbc).data = false := by
  constructor <;> decide

/-- C3 (amended): the catalog filter returns an order-preserving subsequence;
a record is kept iff the whitespace-stripped lower-cased query is empty or a
substring of the record's lower-cased search blob (name, description, offering
labels and variant labels joined by spaces); a query that strips to empty
keeps every record of the catalog in order. -/
theorem c3_filter (services : List Service) (text : String) :
    (filterServices services text).Sublist services ∧
    (∀ svc ∈ services, svc ∈ filterServices services text ↔
      (strLower (strTrim text) = "" ∨
        isSubChars (strLower (strTrim text)).data (searchBlob svc).data = true)) ∧
    (strTrim text = "" → filterServices services text = services) := by
  refine ⟨List.filter_sublist services, ?_, ?_⟩
  · intro svc hmem
    rw [filterServices, List.mem_filter]
    simp only [hmem, true_and]
    rw [recordVisible]
    by_cases hq : strLower (strTrim text) = ""
    · simp [hq]
    · simp [hq]
  · intro ht
    apply List.filter_eq_self.mpr
    intro svc _
    simp [recordVisible, ht, strLower]

/-- Witness for c3_filter: the upper-cased query "STANDARD" keeps the record
svcAbc because "standard" occurs in its lower-cased search blob. -/
theorem c3_filter_witness : svcAbc ∈ filterServices [svcAbc] "STANDARD" :=
  ((c3_filter [svcAbc] "STANDARD").2.1 svcAbc (List.mem_singleton.mpr rfl)).mpr
    (Or.inr (by decide))

/-- C4: for a variant of type xyz carrying an xyz_url, the builder produces
exactly type=xyz&url=<escaped url>&zmin=..&zmax=..&crs=EPSG3857, where the
escaping is the character-wise map sending % & to %25 %26 and the braces to
%7B %7D, leaves every other character (in particular =) unchanged, and zmin
and zmax default to 0 and 21 when the fields are absent. -/
theorem c4_xyz_uri (v : Variant) (url : String)
    (_h1 : v.type = some "xyz") (h2 : v.xyz_url = some url) :
    xyzUri v = .ok ("type=xyz&url=" ++ String.mk (url.data.flatMap escXyzChar) ++
        "&zmin=" ++ toString (v.zmin.getD 0 : Int) ++
        "&zmax=" ++ toString (v.zmax.getD 21 : Int) ++ "&crs=EPSG3857") ∧
      (∀ c : Char, c ∉ (['%', '&', '{', '}'] : List Char) → escXyzChar c = [c]) ∧
      escXyzChar '{' = ['%', '7', 'B'] ∧ escXyzChar '}' = ['%', '7', 'D'] := by
  refine ⟨?_, ?_, by decide, by decide⟩
  · simp [xyzUri, h2, encodeXyzUrl, encodeXyzChars_eq_bind]
  · intro c hc
    have n1 : c ≠ '%' := fun h => hc (by simp [h])
    have n2 : c ≠ '&' := fun h => hc (by simp [h])
    have n3 : c ≠ '{' := fun h => hc (by simp [h])
    have n4 : c ≠ '}' := fun h => hc (by simp [h])
    simp [escXyzChar, n1, n2, n3, n4]

/-- Witness for c4_xyz_uri: the sample xyz variant without zmin/zmax yields
zmin=0, zmax=21, percent-encoded braces and an untouched equals sign. -/
theorem c4_xyz_uri_witness :
    xyzUri vXyzSample =
      .ok "type=xyz&url=https://t/%7Bz%7D/%7By%7D/%7Bx%7D?a=1&zmin=0&zmax=21&crs=EPSG3857" := by
  have h := (c4_xyz_uri vXyzSample "https://t/{z}/{y}/{x}?a=1" rfl rfl).1
  rw [h]
  exact congrArg Except.ok (by decide)

/-- C5: for a variant of type wmts carrying capabilities, layer and
tileMatrixSet, the builder produces exactly
crs=..&format=..&layers=..&styles=..&tileMatrixSet=..&url=<three-step-escaped
capabilities>, with crs, format and style defaulting to EPSG:25833, image/png
and "default" when absent. -/
theorem c5_wmts_uri (v : Variant) (cap layer tms : String)
    (h1 : v.capabilities = some cap) (h2 : v.layer = some layer)
    (h3 : v.tileMatrixSet = some tms) :
    wmtsUri v = .ok ("crs=" ++ v.crs.getD "EPSG:25833" ++
      "&format=" ++ v.format.getD "image/png" ++ "&layers=" ++ layer ++
      "&styles=" ++ v.style.getD "default" ++ "&tileMatrixSet=" ++ tms ++
      "&url=" ++ String.mk (cap.data.flatMap escWmtsChar)) := by
  simp [wmtsUri, h1, h2, h3, encode_url_for_qgis_uri, encodeUrlChars_eq_bind]

/-- Witness for c5_wmts_uri: the sample wmts variant with only the mandatory
fields gets the default crs, format and style and the escaped url. -/
theorem c5_wmts_uri_witness :
    wmtsUri vWmtsSample =
      .ok "crs=EPSG:25833&format=image/png&layers=topo&styles=default&tileMatrixSet=utm33n&url=https://c?s%3DW%26r%3DG" := by
  have h := c5_wmts_uri vWmtsSample "https://c?s=W&r=G" "topo" "utm33n" rfl rfl rfl
  rw [h]
  exact congrArg Except.ok (by decide)

/-- C6 counterexample: a wms variant whose layers field is present but empty
still raises the missing-layers error, so presence of one of the two fields
does not by itself make the builder use layers. -/
theorem c6_counterexample :
    vWmsEmptyLayers.layers.isSome = true ∧
      wmsUri vWmsEmptyLayers = .error .wmsMissingLayers :=
  ⟨rfl, rfl⟩

/-- C6 (amended): for a wms variant with a url, a falsy layers field (absent
or empty) together with a falsy layer field raises the missing-layers
RuntimeError and registers no layer; a non-empty layers field is used as the
layer list; when layers is falsy, a non-empty layer field is the fallback. -/
theorem c6_wms_missing_layers (v : Variant) (u : String) (hu : v.url = some u) :
    (truthyOpt v.layers = false → truthyOpt v.layer = false →
      wmsUri v = .error .wmsMissingLayers ∧
      ∀ host st, addWmsLayer host v st = (.error .wmsMissingLayers, st)) ∧
    (∀ ls, v.layers = some ls → ls ≠ "" →
      wmsUri v = .ok ("crs=" ++ v.crs.getD "EPSG:25833" ++ "&format=" ++
        v.format.getD "image/png" ++ "&layers=" ++ ls ++ "&styles=" ++
        v.styles.getD "" ++ "&url=" ++ String.mk (u.data.flatMap escWmtsChar))) ∧
    (∀ ln, truthyOpt v.layers = false → v.layer = some ln → ln ≠ "" →
      wmsUri v = .ok ("crs=" ++ v.crs.getD "EPSG:25833" ++ "&format=" ++
        v.format.getD "image/png" ++ "&layers=" ++ ln ++ "&styles=" ++
        v.styles.getD "" ++ "&url=" ++ String.mk (u.data.flatMap escWmtsChar))) := by
  refine ⟨?_, ?_, ?_⟩
  · intro h1 h2
    have herr : wmsUri v = .error .wmsMissingLayers := by
      simp [wmsUri, hu, pyOr, h1, h2]
    exact ⟨herr, fun host st => by simp [addWmsLayer, herr]⟩
  · intro ls hls hne
    have ht : truthyOpt (some ls) = true := by simp [truthyOpt, hne]
    simp [wmsUri, hu, pyOr, hls, ht, encode_url_for_qgis_uri, encodeUrlChars_eq_bind]
  · intro ln h1 hln hne
    have ht : truthyOpt (some ln) = true := by simp [truthyOpt, hne]
    simp [wmsUri, hu, pyOr, h1, hln, ht, encode_url_for_qgis_uri, encodeUrlChars_eq_bind]

/-- Witness for c6_wms_missing_layers: a wms variant with a url and neither
layers nor layer raises the missing-layers error and leaves the seeded
project state untouched. -/
theorem c6_wms_missing_layers_witness :
    addWmsLayer hostPermissive { url := some "https://u" } ⟨[sampleLayer], []⟩ =
      (.error .wmsMissingLayers, ⟨[sampleLayer], []⟩) :=
  ((c6_wms_missing_layers { url := some "https://u" } "https://u" rfl).1 rfl rfl).2
    hostPermissive ⟨[sampleLayer], []⟩

theorem xyzUri_ne_unknown (v : Variant) : xyzUri v ≠ .error .unknownType := by
  unfold xyzUri
  cases v.xyz_url <;> simp

theorem wmtsUri_ne_unknown (v : Variant) : wmtsUri v ≠ .error .unknownType := by
  unfold wmtsUri
  cases v.capabilities <;> cases v.layer <;> cases v.tileMatrixSet <;> simp

theorem wmsUri_ne_unknown (v : Variant) : wmsUri v ≠ .error .unknownType := by
  unfold wmsUri
  cases v.url
  · simp
  · dsimp only
    split <;> simp

theorem vtUri_ne_unknown (v : Variant) : vtUri v ≠ .error .unknownType := by
  unfold vtUri
  split
  · simp
  · dsimp only
    split <;> simp

theorem addXyzLayer_spec (host : Host) (v : Variant) (st : ProjState) :
    (∃ l, addXyzLayer host v st = (.ok l, { st with registered := st.registered ++ [l] })) ∨
    (∃ e, addXyzLayer host v st = (.error e, st) ∧ e ≠ .unknownType) := by
  unfold addXyzLayer
  cases hx : xyzUri v with
  | error e => exact Or.inr ⟨e, rfl, fun he => xyzUri_ne_unknown v (he ▸ hx)⟩
  | ok uri =>
    dsimp only
    split
    · exact Or.inl ⟨_, rfl⟩
    · exact Or.inr ⟨_, rfl, by simp⟩

theorem addWmtsLayer_spec (host : Host) (v : Variant) (st : ProjState) :
    (∃ l, addWmtsLayer host v st = (.ok l, { st with registered := st.registered ++ [l] })) ∨
    (∃ e, addWmtsLayer host v st = (.error e, st) ∧ e ≠ .unknownType) := by
  unfold addWmtsLayer
  cases hx : wmtsUri v with
  | error e => exact Or.inr ⟨e, rfl, fun he => wmtsUri_ne_unknown v (he ▸ hx)⟩
  | ok uri =>
    dsimp only
    split
    · exact Or.inl ⟨_, rfl⟩
    · exact Or.inr ⟨_, rfl, by simp⟩

theorem addWmsLayer_spec (host : Host) (v : Variant) (st : ProjState) :
    (∃ l, addWmsLayer host v st = (.ok l, { st with registered := st.registered ++ [l] })) ∨
    (∃ e, addWmsLayer host v st = (.error e, st) ∧ e ≠ .unknownType) := by
  unfold addWmsLayer
  cases hx : wmsUri v with
  | error e => exact Or.inr ⟨e, rfl, fun he => wmsUri_ne_unknown v (he ▸ hx)⟩
  | ok uri =>
    dsimp only
    split
    · exact Or.inl ⟨_, rfl⟩
    · exact Or.inr ⟨_, rfl, by simp⟩

theorem addVectortileLayer_spec (host : Host) (v : Variant) (st : ProjState) :
    (∃ l, addVectortileLayer host v st = (.ok l, { st with registered := st.registered ++ [l] })) ∨
    (∃ e, addVectortileLayer host v st = (.error e, st) ∧ e ≠ .unknownType) := by
  unfold addVectortileLayer
  split
  · cases hx : vtUri v with
    | error e => exact Or.inr ⟨e, rfl, fun he => vtUri_ne_unknown v (he ▸ hx)⟩
    | ok uri =>
      dsimp only
      split
      · exact Or.inl ⟨_, rfl⟩
      · exact Or.inr ⟨_, rfl, by simp⟩
  · exact Or.inr ⟨_, rfl, by simp⟩

theorem groupAfter_spec (step : Except BuildErr Layer × ProjState) (st : ProjState)
    (h : (∃ l, step = (.ok l, { st with registered := st.registered ++ [l] })) ∨
      (∃ e, step = (.error e, st) ∧ e ≠ .unknownType)) :
    (∃ l, groupAfter step = (.ok l, ⟨st.registered ++ [l], st.groupLayers ++ [l]⟩)) ∨
    (∃ e, groupAfter step = (.error e, st) ∧ e ≠ .unknownType) := by
  rcases h with ⟨l, hl⟩ | ⟨e, he, hne⟩
  · subst hl
    exact Or.inl ⟨l, rfl⟩
  · subst he
    exact Or.inr ⟨e, rfl, hne⟩

theorem runAdd_spec (host : Host) (service : Service) (tk : String) (v : Variant)
    (st : ProjState) :
    (buildTimeRecognized v = false → runAdd host service tk v st = (.error .unknownType, st)) ∧
    (buildTimeRecognized v = true →
      (∃ l, runAdd host service tk v st = (.ok l, ⟨st.registered ++ [l], st.groupLayers ++ [l]⟩)) ∨
      (∃ e, runAdd host service tk v st = (.error e, st) ∧ e ≠ .unknownType)) := by
  constructor
  · intro hrec
    unfold buildTimeRecognized at hrec
    simp only [Bool.or_eq_true, beq_iff_eq, not_or, Bool.or_eq_false_iff,
      beq_eq_false_iff_ne, ne_eq] at hrec
    obtain ⟨⟨⟨⟨⟨⟨h1, h2⟩, h3⟩, h4⟩, h5⟩, h6⟩, h7⟩ := hrec
    simp only [runAdd]
    rw [if_neg h1, if_neg h2, if_neg h3, if_neg (by simp [h4, h5, h6, h7])]
    rfl
  · intro hrec
    unfold buildTimeRecognized at hrec
    simp only [Bool.or_eq_true, beq_iff_eq] at hrec
    simp only [runAdd]
    rcases hrec with ((((((h | h) | h) | h) | h) | h) | h)
    · rw [if_pos h]
      exact groupAfter_spec _ st (addWmtsLayer_spec host _ st)
    · rw [if_neg (by rw [h]; decide), if_pos h]
      exact groupAfter_spec _ st (addXyzLayer_spec host _ st)
    · rw [if_neg (by rw [h]; decide), if_neg (by rw [h]; decide), if_pos h]
      exact groupAfter_spec _ st (addWmsLayer_spec host _ st)
    · rw [if_neg (by rw [h]; decide), if_neg (by rw [h]; decide),
        if_neg (by rw [h]; decide), if_pos (Or.inl h)]
      exact groupAfter_spec _ st (addVectortileLayer_spec host _ st)
    · rw [if_neg (by rw [h]; decide), if_neg (by rw [h]; decide),
        if_neg (by rw [h]; decide), if_pos (Or.inr (Or.inl h))]
      exact groupAfter_spec _ st (addVectortileLayer_spec host _ st)
    · rw [if_neg (by rw [h]; decide), if_neg (by rw [h]; decide),
        if_neg (by rw [h]; decide), if_pos (Or.inr (Or.inr (Or.inl h)))]
      exact groupAfter_spec _ st (addVectortileLayer_spec host _ st)
    · rw [if_neg (by rw [h]; decide), if_neg (by rw [h]; decide),
        if_neg (by rw [h]; decide), if_pos (Or.inr (Or.inr (Or.inr h)))]
      exact groupAfter_spec _ st (addVectortileLayer_spec host _ st)

/-- C7 counterexample: the alias arcgisvectortile is grouped under vectortile
by the offering normalization, yet run's build-time dispatch does not
recognize it and raises the unknown-type error, so the build-time recognized
set does not include every vector-tile alias of the normalization. -/
theorem c7_counterexample :
    variantGroupKey vArcgisVT = "vectortile" ∧
      (runAdd hostPermissive {} "vectortile" vArcgisVT ⟨[], []⟩).1 = .error .unknownType :=
  ⟨by decide, rfl⟩

/-- C7 (amended): the build step raises the unknown-type error, adding no
layer, exactly for variants whose lower-cased type is outside the build-time
set wmts, xyz, wms, vectortile, vt, mvt, arcgis_vt (which omits the
normalization alias arcgisvectortile); recognized variants never produce the
unknown-type error; and no validation happens at catalog-load time: every
variant of a flat-variants service, whatever its type, appears in the
offering group given by its group key. -/
theorem c7_unknown_type (host : Host) (service : Service) (tk : String) (v : Variant)
    (st : ProjState) :
    (buildTimeRecognized v = false →
      runAdd host service tk v st = (.error .unknownType, st)) ∧
    (buildTimeRecognized v = true →
      (runAdd host service tk v st).1 ≠ .error .unknownType) ∧
    (∀ svc : Service, svc.offerings = none → ∀ w ∈ svc.variants.getD [],
      ∃ off, (normalizeOfferings svc).lookup (variantGroupKey w) = some off ∧
        w ∈ off.variants.getD []) := by
  refine ⟨(runAdd_spec host service tk v st).1, ?_, ?_⟩
  · intro hrec
    rcases (runAdd_spec host service tk v st).2 hrec with ⟨l, hl⟩ | ⟨e, he, hne⟩
    · rw [hl]
      simp
    · rw [he]
      simp [hne]
  · intro svc hoff w hw
    have hkey := variantGroupKey_mem w
    have hnorm : normalizeOfferings svc = fromVariants (some (svc.variants.getD [])) := by
      rw [normalizeOfferings, hoff]
      cases svc.variants <;> rfl
    have hfilter : w ∈ (svc.variants.getD []).filter
        (fun x => variantGroupKey x == variantGroupKey w) :=
      List.mem_filter.mpr ⟨hw, by simp⟩
    have hne := List.ne_nil_of_mem hfilter
    obtain ⟨off, h1, h2⟩ := fromVariants_lookup _ _ hkey hne
    refine ⟨off, by rw [hnorm]; exact h1, ?_⟩
    rw [h2]
    simpa using hfilter

/-- Witness for c7_unknown_type: a variant of type foo is rejected by the
build step with the unknown-type error and no state change. -/
theorem c7_unknown_type_witness :
    runAdd hostPermissive {} "wmts" { type := some "foo" } ⟨[], []⟩ =
      (.error .unknownType, ⟨[], []⟩) :=
  (c7_unknown_type hostPermissive {} "wmts" { type := some "foo" } ⟨[], []⟩).1 rfl

/-- C8: the add-layer pipeline of run is atomic: when any step fails (missing
field, unavailable capability, unknown type or a layer the host reports
invalid), the project state is exactly the initial one - nothing registered
and nothing added to the Bakgrunnskart group; when it succeeds, exactly the
one built layer is appended to both. -/
theorem c8_atomic_add (host : Host) (service : Service) (tk : String) (v : Variant)
    (st : ProjState) :
    (∀ e, (runAdd host service tk v st).1 = .error e →
      (runAdd host service tk v st).2 = st) ∧
    (∀ l, (runAdd host service tk v st).1 = .ok l →
      (runAdd host service tk v st).2 = ⟨st.registered ++ [l], st.groupLayers ++ [l]⟩) := by
  cases hb : buildTimeRecognized v with
  | false =>
    have h := (runAdd_spec host service tk v st).1 hb
    constructor
    · intro e _
      rw [h]
    · intro l hl
      rw [h] at hl
      simp at hl
  | true =>
    rcases (runAdd_spec host service tk v st).2 hb with ⟨l, hl⟩ | ⟨e, he, _⟩
    · constructor
      · intro e hee
        rw [hl] at hee
        simp at hee
      · intro l2 hl2
        rw [hl] at hl2 ⊢
        simp at hl2
        rw [hl2]
    · constructor
      · intro e2 _
        rw [he]
      · intro l hl
        rw [he] at hl
        simp at hl

/-- Witness for c8_atomic_add: a host that rejects every uri leaves the
seeded project state exactly as it was. -/
theorem c8_atomic_add_witness :
    (runAdd hostRejecting {} "wmts" vWmtsSample ⟨[sampleLayer], [sampleLayer]⟩).2 =
      ⟨[sampleLayer], [sampleLayer]⟩ :=
  (c8_atomic_add hostRejecting {} "wmts" vWmtsSample ⟨[sampleLayer], [sampleLayer]⟩).1 _ rfl

theorem lookup_isSome_of_mem_keys {β : Type} :
    ∀ (l : List (String × β)) (k : String), k ∈ l.map Prod.fst → (l.lookup k).isSome = true
  | [], _, h => by simp at h
  | (a, b) :: t, k, h => by
    by_cases hk : k = a
    · simp [List.lookup, hk]
    · have hmem : k ∈ t.map Prod.fst := by
        rcases List.mem_cons.mp h with h1 | h1
        · exact absurd h1 hk
        · exact h1
      have ih := lookup_isSome_of_mem_keys t k hmem
      have hbeq : (k == a) = false := by simp [hk]
      simp only [List.lookup]
      rw [hbeq]
      exact ih

theorem mem_insertSorted (x y : String) :
    ∀ (l : List String), y ∈ insertSorted x l → y = x ∨ y ∈ l
  | [], h => Or.inl (by simpa [insertSorted] using h)
  | z :: t, h => by
    unfold insertSorted at h
    split at h
    · rcases List.mem_cons.mp h with h1 | h1
      · exact Or.inl h1
      · exact Or.inr h1
    · rcases List.mem_cons.mp h with h1 | h1
      · exact Or.inr (List.mem_cons.mpr (Or.inl h1))
      · rcases mem_insertSorted x y t h1 with h2 | h2
        · exact Or.inl h2
        · exact Or.inr (List.mem_cons.mpr (Or.inr h2))

theorem mem_sortStrings (y : String) :
    ∀ (l : List String), y ∈ sortStrings l → y ∈ l
  | [], h => by simp [sortStrings] at h
  | x :: t, h => by
    unfold sortStrings at h
    rcases mem_insertSorted x y (sortStrings t) h with h1 | h1
    · rw [h1]
      exact List.mem_cons_self x t
    · exact List.mem_cons.mpr (Or.inr (mem_sortStrings y t h1))

theorem typeKeysOrder_lookup_isSome (offs : List (String × Offering)) (k : String)
    (h : k ∈ typeKeysOrder offs) : (offs.lookup k).isSome = true := by
  rcases List.mem_append.mp h with h1 | h1
  · exact (List.mem_filter.mp h1).2
  · have h2 := mem_sortStrings k _ h1
    exact lookup_isSome_of_mem_keys offs k (List.mem_filter.mp h2).1

theorem find?_decomp {α : Type} (p : α → Bool) :
    ∀ (l : List α) (b : α), l.find? p = some b →
      ∃ l₁ l₂, l = l₁ ++ b :: l₂ ∧ (∀ a ∈ l₁, p a = false) ∧ p b = true
  | [], b, h => by simp at h
  | a :: t, b, h => by
    cases hp : p a with
    | true =>
      rw [List.find?_cons_of_pos t hp] at h
      injection h with h
      subst h
      exact ⟨[], t, rfl, by simp, hp⟩
    | false =>
      rw [List.find?_cons_of_neg t (by simp [hp])] at h
      obtain ⟨l₁, l₂, heq, h1, h2⟩ := find?_decomp p t b h
      refine ⟨a :: l₁, l₂, by rw [heq]; rfl, ?_, h2⟩
      intro x hx
      rcases List.mem_cons.mp hx with h3 | h3
      · rw [h3]
        exact hp
      · exact h1 x h3

theorem autoTypeKey_spec (s : Service) (k : String) (h : autoTypeKey s = some k) :
    ∃ off, (normalizeOfferings s).lookup k = some off ∧ off.disabled = false := by
  simp only [autoTypeKey] at h
  cases hf : (typeKeysOrder (normalizeOfferings s)).find?
      (fun k => !keyDisabled (normalizeOfferings s) k) with
  | none =>
    rw [hf] at h
    dsimp only at h
    exact absurd h (by simp)
  | some k0 =>
    rw [hf] at h
    dsimp only at h
    by_cases hk0 : k0 = ""
    · rw [if_pos hk0] at h
      exact absurd h (by simp)
    · rw [if_neg hk0] at h
      injection h with h
      subst h
      have hp := List.find?_some hf
      have hmem := List.mem_of_find?_eq_some hf
      have hsome := typeKeysOrder_lookup_isSome _ _ hmem
      obtain ⟨off, hoff⟩ := Option.isSome_iff_exists.mp hsome
      refine ⟨off, hoff, ?_⟩
      have hkd : keyDisabled (normalizeOfferings s) k0 = false := by
        simpa using hp
      simpa [keyDisabled, hoff] using hkd

theorem dialogInv (st : DState) (hr : DialogReachable st) :
    (∀ s k, st.svc = some s → st.typeKey = some k →
      ∃ off, (normalizeOfferings s).lookup k = some off ∧ off.disabled = false) ∧
    (st.res = .accepted → st.svc.isSome ∧ st.typeKey.isSome ∧ st.variant.isSome) := by
  induction hr with
  | init =>
    constructor
    · intro s k hs _hk
      simp [initDialog] at hs
    · intro hacc
      simp [initDialog] at hacc
  | step _hr hstep ih =>
    cases hstep with
    | selectService s h =>
      constructor
      · intro s' k hs hk
        dsimp only at hs hk
        injection hs with hs
        subst hs
        exact autoTypeKey_spec _ k hk
      · intro hacc
        exact absurd hacc (by simp)
    | clickType s k off h hs hk hd =>
      constructor
      · intro s' k' hs' hk'
        dsimp only at hs' hk'
        rw [hs] at hs'
        injection hs' with hs'
        subst hs'
        injection hk' with hk'
        subst hk'
        exact ⟨off, hk, hd⟩
      · intro hacc
        exact absurd hacc (by simp)
    | clickVariant s v h hs hv =>
      constructor
      · intro s' k' hs' hk'
        exact ih.1 s' k' hs' hk'
      · intro hacc
        exact absurd hacc (by simp)
    | filterClear h =>
      constructor
      · intro s' k' _hs' hk'
        dsimp only at hk'
        exact absurd hk' (by simp)
      · intro hacc
        exact absurd hacc (by simp)
    | pressOk s k v h hs hk hke hv =>
      constructor
      · intro s' k' hs' hk'
        exact ih.1 s' k' hs' hk'
      · intro _hacc
        exact ⟨by simp [hs], by simp [hk], by simp [hv]⟩
    | pressCancel h =>
      constructor
      · intro s' k' hs' hk'
        exact ih.1 s' k' hs' hk'
      · intro hacc
        exact absurd hacc (by simp)

/-- C9: in every reachable dialog state the selected type key, when set,
names an existing non-disabled offering of the selected service (disabled
radio buttons cannot be activated); the automatic type selection picks the
first non-disabled key of the stable order, every earlier key being disabled;
it selects none when every offering is disabled; and an accepted dialog's
selection never refers to a disabled offering. -/
theorem c9_disabled_unreachable :
    (∀ st, DialogReachable st → ∀ s k, st.svc = some s → st.typeKey = some k →
      ∃ off, (normalizeOfferings s).lookup k = some off ∧ off.disabled = false) ∧
    (∀ s k, autoTypeKey s = some k →
      ∃ l₁ l₂, typeKeysOrder (normalizeOfferings s) = l₁ ++ k :: l₂ ∧
        (∀ k' ∈ l₁, keyDisabled (normalizeOfferings s) k' = true) ∧
        keyDisabled (normalizeOfferings s) k = false) ∧
    (∀ s, (∀ k ∈ typeKeysOrder (normalizeOfferings s),
        keyDisabled (normalizeOfferings s) k = true) → autoTypeKey s = none) ∧
    (∀ st, DialogReachable st → st.res = .accepted →
      ∃ s k off, st.svc = some s ∧ st.typeKey = some k ∧
        (normalizeOfferings s).lookup k = some off ∧ off.disabled = false) := by
  refine ⟨fun st hr => (dialogInv st hr).1, ?_, ?_, ?_⟩
  · intro s k h
    simp only [autoTypeKey] at h
    cases hf : (typeKeysOrder (normalizeOfferings s)).find?
        (fun k => !keyDisabled (normalizeOfferings s) k) with
    | none =>
      rw [hf] at h
      dsimp only at h
      exact absurd h (by simp)
    | some k0 =>
      rw [hf] at h
      dsimp only at h
      by_cases hk0 : k0 = ""
      · rw [if_pos hk0] at h
        exact absurd h (by simp)
      · rw [if_neg hk0] at h
        injection h with h
        subst h
        obtain ⟨l₁, l₂, heq, h1, h2⟩ := find?_decomp _ _ _ hf
        refine ⟨l₁, l₂, heq, ?_, by simpa using h2⟩
        intro k' hk'
        have := h1 k' hk'
        simpa using this
  · intro s hall
    simp only [autoTypeKey]
    have hnone : (typeKeysOrder (normalizeOfferings s)).find?
        (fun k => !keyDisabled (normalizeOfferings s) k) = none := by
      apply List.find?_eq_none.mpr
      intro x hx
      simp [hall x hx]
    rw [hnone]
  · intro st hr hacc
    obtain ⟨h1, h2⟩ := dialogInv st hr
    obtain ⟨hsv, htk, _hv⟩ := h2 hacc
    obtain ⟨s, hs⟩ := Option.isSome_iff_exists.mp hsv
    obtain ⟨k, hk⟩ := Option.isSome_iff_exists.mp htk
    obtain ⟨off, ho, hd⟩ := h1 s k hs hk
    exact ⟨s, k, off, hs, hk, ho, hd⟩

/-- Witness for c9_disabled_unreachable: on the concrete service whose wmts
offering is disabled, the automatic selection lands on "wms", every key
before it in the stable order is disabled and "wms" itself is not. -/
theorem c9_disabled_unreachable_witness :
    ∃ l₁ l₂, typeKeysOrder (normalizeOfferings svcDisabledFirst) = l₁ ++ "wms" :: l₂ ∧
      (∀ k' ∈ l₁, keyDisabled (normalizeOfferings svcDisabledFirst) k' = true) ∧
      keyDisabled (normalizeOfferings svcDisabledFirst) "wms" = false :=
  c9_disabled_unreachable.2.1 svcDisabledFirst "wms" rfl

/-- C10: get_selection returns (None, None, None) whenever the dialog result
is not accepted, and an accepted dialog always yields a fully populated
(service, type key, variant) triple, because _accept refuses to accept while
any of the three is missing. -/
theorem c10_selection_all_or_nothing :
    (∀ st : DState, st.res ≠ .accepted → getSelection st = (none, none, none)) ∧
    (∀ st, DialogReachable st → st.res = .accepted →
      ∃ s k v, getSelection st = (some s, some k, some v)) := by
  constructor
  · intro st h
    simp [getSelection, h]
  · intro st hr hacc
    obtain ⟨_h1, h2⟩ := dialogInv st hr
    obtain ⟨hsv, htk, hv⟩ := h2 hacc
    obtain ⟨s, hs⟩ := Option.isSome_iff_exists.mp hsv
    obtain ⟨k, hk⟩ := Option.isSome_iff_exists.mp htk
    obtain ⟨v, hvv⟩ := Option.isSome_iff_exists.mp hv
    exact ⟨s, k, v, by simp [getSelection, hacc, hs, hk, hvv]⟩

/-- Witness for c10_selection_all_or_nothing: picking the concrete xyz
service and confirming reaches an accepted state whose selection triple is
fully populated. -/
theorem c10_selection_witness :
    ∃ s k v,
      getSelection ⟨some svcSimple, autoTypeKey svcSimple,
        (variantsForType svcSimple (autoTypeKey svcSimple)).head?, .accepted⟩ =
        (some s, some k, some v) := by
  have h1 : DialogReachable (⟨some svcSimple, autoTypeKey svcSimple,
      (variantsForType svcSimple (autoTypeKey svcSimple)).head?, .opened⟩ : DState) :=
    DialogReachable.step DialogReachable.init (DStep.selectService initDialog svcSimple rfl)
  have h2 : DialogReachable ⟨some svcSimple, autoTypeKey svcSimple,
      (variantsForType svcSimple (autoTypeKey svcSimple)).head?, .accepted⟩ :=
    DialogReachable.step h1 (DStep.pressOk _ svcSimple "wmts"
      { type := some "xyz", xyz_url := some "https://x" } rfl rfl rfl (by decide) rfl)
  exact c10_selection_all_or_nothing.2 _ h2 rfl
